import Mathlib

/-!
# Verification of quantum-image-processing circuit builders

A shallow embedding, in Lean 4, of the circuit-builder classes of the
quantum-image-processing repository:

* models/tensor_network_circuits/mps.py (class MPS),
* data_encoder/image_representations/neqr.py (class NEQR),
* neural_networks/layers/quanvolutional_layer.py (class QuanvolutionalLayer).

Quantum circuits are modelled as lists of abstract instructions: the builders
under verification only ever append gates to a circuit object, so the
instruction list captures everything the builders decide (which gates, on
which qubits, in which order).  Python exceptions are modelled with Except,
machine integers with Nat/Int, and Python container values (tuples, lists)
with Lean lists, keeping the source's evaluation order.
-/

namespace QIP

/- ## Python value modelling shared by the constructors -/

/-- A Python object in an argument position that the code probes with
isinstance checks.  int covers Python ints (and bools, which are ints in
Python); nonInt covers every other element type. -/
inductive PyItem where
  | int (n : ℤ)
  | nonInt
deriving DecidableEq, Repr

/-- A Python object passed as img_dims.  tuple is a Python tuple with the
given elements; nontupleIterable is any non-tuple iterable (list, set,
string, ...) with the given elements; notIterable is a non-iterable object,
over which iterating raises a TypeError. -/
inductive PyObj where
  | tuple (elems : List PyItem)
  | nontupleIterable (elems : List PyItem)
  | notIterable
deriving DecidableEq, Repr

/-- Python exceptions raised by the constructors under verification. -/
inductive PyError where
  | typeError (msg : String)
  | valueError (msg : String)
  | indexError
  | nameError (name : String)
deriving DecidableEq, Repr

/-- Decidable equality of Except values, so that concrete runs of the
embedded constructors can be checked by decide. -/
instance exceptDecEq {ε α : Type} [DecidableEq ε] [DecidableEq α] :
    DecidableEq (Except ε α) :=
  fun a b =>
    match a, b with
    | .error e, .error f =>
        if h : e = f then .isTrue (by rw [h])
        else .isFalse (fun hc => h (Except.error.inj hc))
    | .ok x, .ok y =>
        if h : x = y then .isTrue (by rw [h])
        else .isFalse (fun hc => h (Except.ok.inj hc))
    | .error _, .ok _ => .isFalse (fun hc => Except.noConfusion hc)
    | .ok _, .error _ => .isFalse (fun hc => Except.noConfusion hc)

/-- Whether every element of a Python iterable is an int
(the all-isinstance generator in the constructors). -/
def allInts (elems : List PyItem) : Bool :=
  elems.all fun e =>
    match e with
    | .int _ => true
    | .nonInt => false

/-- img_dims is a tuple whose elements are all ints. -/
def isIntTuple (o : PyObj) : Bool :=
  match o with
  | .tuple elems => allInts elems
  | _ => false

/-- The integer elements of a tuple of ints (empty list otherwise). -/
def tupleInts (o : PyObj) : List ℤ :=
  match o with
  | .tuple elems =>
      elems.filterMap fun e =>
        match e with
        | .int n => some n
        | .nonInt => none
  | _ => []

/-- math.prod over a list of integers (math.prod of an empty tuple is 1). -/
def pyProd (l : List ℤ) : ℤ := l.foldl (fun a b => a * b) 1

/- ## MPS (models/tensor_network_circuits/mps.py) -/

/-- State stored by a successfully constructed MPS instance:
img_dims and num_qubits = int(math.prod(img_dims)); the freshly created
circuit has num_qubits qubits and no gates yet. -/
structure MPSState where
  img_dims : List ℤ
  num_qubits : ℕ
deriving DecidableEq, Repr

/-- MPS.__init__ (mps.py lines 28-47).  First the isinstance checks: the
generator inside all() raises a TypeError on a non-iterable argument, the
explicit check raises a TypeError when some element is not an int or the
argument is not a tuple.  Then math.prod(img_dims) <= 0 raises a ValueError.
Otherwise the instance stores img_dims and allocates a circuit with
int(math.prod(img_dims)) qubits. -/
def mps_init (img_dims : PyObj) : Except PyError MPSState :=
  match img_dims with
  | .notIterable => .error (.typeError "argument of type int is not iterable")
  | .nontupleIterable _ =>
      .error (.typeError "Input img_dims must be of the type tuple[int, int].")
  | .tuple elems =>
      if allInts elems then
        let dims := tupleInts (.tuple elems)
        if pyProd dims ≤ 0 then
          .error (.valueError "Image dimensions cannot be zero or negative.")
        else
          .ok ⟨dims, (pyProd dims).toNat⟩
      else
        .error (.typeError "Input img_dims must be of the type tuple[int, int].")

/-- One pass of MPS.mps_backbone's loop body (mps.py lines 141-146), made
generic over the gate_structure callable: starting from qubit index i, lay
out k unitary blocks, each obtained by calling gate_structure on the current
remaining parameter vector; the call returns the block together with the
remaining parameters, which are threaded into the next call.  Block i acts
on qubits (i, i+1). -/
def mps_blocks {PV B : Type} (gate_structure : PV → B × PV) (pv : PV) (i : ℕ) :
    ℕ → List (B × ℕ × ℕ) × PV
  | 0 => ([], pv)
  | k + 1 =>
      let r := gate_structure pv
      let rest := mps_blocks gate_structure r.2 (i + 1) k
      ((r.1, i, i + 1) :: rest.1, rest.2)

/-- MPS.mps_backbone (mps.py lines 116-148): for index in
range(0, num_qubits - 1), call gate_structure on the remaining parameter
vector and compose the returned block onto the stored circuit on qubits
[index, index + 1]; finally return the stored circuit. -/
def mps_backbone {PV B : Type} (gate_structure : PV → B × PV)
    (circuit : List (B × ℕ × ℕ)) (pv : PV) (num_qubits : ℕ) :
    List (B × ℕ × ℕ) :=
  circuit ++ (mps_blocks gate_structure pv 0 (num_qubits - 1)).1

/-- The parameter vector fed to the i-th gate_structure call when the
initial vector is pv: each call consumes a prefix and returns the rest. -/
def param_thread {PV B : Type} (gate_structure : PV → B × PV) (pv : PV)
    (i : ℕ) : PV :=
  (fun p => (gate_structure p).2)^[i] pv

/-- Length of the parameter vector allocated by MPS.mps_simple
(mps.py line 67): ParameterVector of length 2 * num_qubits - 2,
independently of complex_structure. -/
def mps_simple_param_length (num_qubits : ℕ) : ℕ := 2 * num_qubits - 2

/-- Length of the parameter vector allocated by MPS.mps_general
(mps.py lines 89-94): 15 * num_qubits - 2 when complex_structure,
6 * num_qubits - 2 otherwise. -/
def mps_general_param_length (complex_structure : Bool) (num_qubits : ℕ) : ℕ :=
  if complex_structure then 15 * num_qubits - 2 else 6 * num_qubits - 2

/-- Number of two-qubit unitary blocks laid out by MPS.mps_backbone
(mps.py line 141): one per loop index in range(0, num_qubits - 1). -/
def mps_num_blocks (num_qubits : ℕ) : ℕ := num_qubits - 1

/-- Modelled from the spec: gates/two_qubit_unitary.py is not under src/.
Per-block parameter count of TwoQubitUnitary.simple_parameterization: 2
parameters per two-qubit block for both the real and the complex structure
(the unit tests feed simple_parameterization a ParameterVector of length 2
in both cases, and mps_simple allocates 2 per block). -/
def simple_block_param_count (_complex_structure : Bool) : ℕ := 2

/-- Modelled from the spec: gates/two_qubit_unitary.py is not under src/.
Per-block parameter count of TwoQubitUnitary.general_parameterization: 15
parameters per block for the complex structure (a general two-qubit unitary
has 15 real parameters) and 6 for the real structure (a real orthogonal
two-qubit gate has 6). -/
def general_block_param_count (complex_structure : Bool) : ℕ :=
  if complex_structure then 15 else 6

/- ## Exact integer versions of the numpy/math formulas

The source computes qubit counts with int(np.ceil(np.sqrt(x))) and
int(np.ceil(math.log(x, 2))).  These are embedded as exact natural-number
functions (for the argument ranges fixed by the constructors the floating
point computation agrees with the exact one).  Both are structurally
recursive so that concrete instances evaluate by decide. -/

/-- Search step for the ceiling square root: the least k with n le k * k,
found by scanning the bound downwards. -/
def ceilSqrtAux (n : ℕ) : ℕ → ℕ
  | 0 => 0
  | k + 1 => if n ≤ k * k then ceilSqrtAux n k else k + 1

/-- int(np.ceil(np.sqrt(n))) for a natural number n: the least k with
n ≤ k * k. -/
def ceilSqrt (n : ℕ) : ℕ := ceilSqrtAux n n

/-- Fuel-indexed ceiling base-2 logarithm: ceil(log2 n) computed by
repeatedly halving (rounding the argument up), matching Nat.clog 2. -/
def ceilLog2Aux : ℕ → ℕ → ℕ
  | 0, _ => 0
  | fuel + 1, n => if n ≤ 1 then 0 else ceilLog2Aux fuel ((n + 1) / 2) + 1

/-- int(np.ceil(math.log(n, 2))) for a natural number n ≥ 1. -/
def ceilLog2 (n : ℕ) : ℕ := ceilLog2Aux n n

/- ## NEQR (data_encoder/image_representations/neqr.py) -/

/-- One instruction appended to the NEQR circuit.  h is a Hadamard gate on
one qubit; mct is a multi-controlled-X gate with the given control qubits
and target qubit.  pixelPosition is modelled from the spec:
ImageMixin.pixel_position (mixin/image_embedding_mixin.py) is not under
src/, so the sub-circuit it appends for a given binary-string argument is
recorded as a single opaque marker carrying that argument. -/
inductive NeqrInstr where
  | h (qubit : ℕ)
  | mct (controls : List ℕ) (target : ℕ)
  | pixelPosition (bin : List Char)
deriving DecidableEq, Repr

/-- Left-pad a digit string with zeros to width w, as the Python format
specifier 0>w does (a longer string is kept unchanged, not truncated). -/
def padLeftZeros (w : ℕ) (s : List Char) : List Char :=
  List.replicate (w - s.length) '0' ++ s

/-- The Python format f-string value for a nonnegative integer v and format
0>wb: the binary digits of v, most significant first, left-padded with
zeros to width w. -/
def pyBinFormat (w : ℕ) (v : ℤ) : List Char :=
  padLeftZeros w (Nat.toDigits 2 v.toNat)

/-- State stored by a successfully constructed NEQR instance
(neqr.py lines 15-37).  max_color_intensity holds the incremented value the
constructor stores; the stored circuit has feature_dim + color_qubits
qubits and starts with no gates. -/
structure NeqrState where
  img_dims : ℤ × ℤ
  pixel_vals : List ℤ
  max_color_intensity : ℤ
  feature_dim : ℕ
  color_qubits : ℕ
  num_qubits : ℕ
  circuit : List NeqrInstr
deriving DecidableEq, Repr

/-- pixel_vals passes the base-class validation: as many pixels as the
product of the image dimensions, every value in [0, 255]. -/
def valid_pixel_vals (img_dims : ℤ × ℤ) (pixel_vals : List ℤ) : Prop :=
  (pixel_vals.length : ℤ) = img_dims.1 * img_dims.2
  ∧ ∀ v ∈ pixel_vals, 0 ≤ v ∧ v ≤ 255

instance (img_dims : ℤ × ℤ) (pixel_vals : List ℤ) :
    Decidable (valid_pixel_vals img_dims pixel_vals) :=
  inferInstanceAs (Decidable (_ ∧ _))

/-- Modelled from the spec: ImageEmbedding.__init__
(data_encoder/image_representations/image_embedding.py) is not under src/.
Per the spec (constructor-time range checks with "pixel values in [0,255]"
raising standard value errors) and the repository's embedding tests (which
assert a ValueError when the number of pixels differs from the product of
the image dimensions, and a ValueError with the quoted message for
out-of-range pixel values), the base constructor validates pixel_vals
before NEQR's own checks run.  The inputs are taken type-valid (the
isinstance checks are modelled by the Lean types); the relative order of
the two pixel checks is modelled, both preceding the square-image check. -/
def image_embedding_checks (img_dims : ℤ × ℤ) (pixel_vals : List ℤ) :
    Option PyError :=
  if (pixel_vals.length : ℤ) ≠ img_dims.1 * img_dims.2 then
    some (.valueError
      "No. of pixels in pixel_vals must be equal to the product of image dimensions.")
  else if ∀ v ∈ pixel_vals, 0 ≤ v ∧ v ≤ 255 then none
  else
    some (.valueError "Pixel values cannot be less than 0 or greater than 255.")

/-- NEQR.__init__ (neqr.py lines 15-37).  First ImageEmbedding.__init__
runs (neqr.py line 21; not under src/, modelled from the spec and tests by
image_embedding_checks).  Then validate_square_images (neqr.py line 22; not
under src/; modelled from the spec "image dimensions must be square
integers"): a non-square img_dims raises a ValueError (message as asserted
by the square-image unit test).  Then the code under src/:
max_color_intensity outside [0, 255] raises a ValueError with the quoted
message; otherwise the instance stores max_color_intensity + 1,
feature_dim = int(np.ceil(np.sqrt(prod(img_dims)))),
color_qubits = int(np.ceil(log2(max_color_intensity + 1))), and allocates a
circuit with feature_dim + color_qubits qubits. -/
def neqr_init (img_dims : ℤ × ℤ) (pixel_vals : List ℤ)
    (max_color_intensity : ℤ) : Except PyError NeqrState :=
  match image_embedding_checks img_dims pixel_vals with
  | some e => .error e
  | none =>
    if img_dims.1 ≠ img_dims.2 then
      .error (.valueError
        "supports square images only. Input img_dims must have same dimensions.")
    else if max_color_intensity < 0 ∨ 255 < max_color_intensity then
      .error (.valueError
        "Maximum color intensity cannot be less than 0 or greater than 255.")
    else
      let fd := ceilSqrt (img_dims.1 * img_dims.2).toNat
      let mci := max_color_intensity + 1
      let cq := ceilLog2 mci.toNat
      .ok ⟨img_dims, pixel_vals, mci, fd, cq, fd + cq, []⟩

/-- NEQR.pixel_value (neqr.py lines 44-53): format pixel_vals[pixel_pos]
as an 8-bit binary string, and for every index holding a one-digit append
one mct gate controlled by all feature_dim position qubits with target
qubit feature_dim + index.  Python raises an IndexError when pixel_pos is
out of range; the embedding totalizes the lookup with a default and the
theorems restrict to in-range positions. -/
def pixel_value (feature_dim : ℕ) (pixel_vals : List ℤ) (pixel_pos : ℕ) :
    List NeqrInstr :=
  let color_byte := pyBinFormat 8 (pixel_vals.getD pixel_pos 0)
  let control_qubits := List.range feature_dim
  color_byte.enum.filterMap fun ic =>
    if ic.2 = '1' then some (.mct control_qubits (feature_dim + ic.1))
    else none

/-- NEQR.build_circuit (neqr.py lines 55-78): apply a Hadamard gate to each
of the feature_dim position qubits; then for every pixel index in
range(prod(img_dims)) append the pixel-position embedding for the 2-padded
binary encoding of the index, the pixel-value embedding for that index, and
the same pixel-position embedding again; finally return the stored
circuit. -/
def neqr_build_circuit (s : NeqrState) : List NeqrInstr :=
  let c1 := (List.range s.feature_dim).foldl
    (fun c i => c ++ [NeqrInstr.h i]) s.circuit
  (List.range (s.img_dims.1 * s.img_dims.2).toNat).foldl
    (fun (c : List NeqrInstr) (pixel : ℕ) =>
      let pixel_pos_binary := pyBinFormat 2 (pixel : ℤ)
      c ++ [NeqrInstr.pixelPosition pixel_pos_binary]
        ++ pixel_value s.feature_dim s.pixel_vals pixel
        ++ [NeqrInstr.pixelPosition pixel_pos_binary])
    c1

/- ## QuanvolutionalLayer (neural_networks/layers/quanvolutional_layer.py) -/

/-- min() over a Python sequence: None on the empty sequence (where Python
raises a ValueError), the minimum element otherwise. -/
def pyMin (l : List ℤ) : Option ℤ :=
  match l with
  | [] => none
  | x :: xs => some (xs.foldl min x)

/-- State stored by a successfully constructed QuanvolutionalLayer
(quanvolutional_layer.py lines 25-88).  BaseLayer is not under src/;
modelled from the spec as plain storage of num_qubits =
int(math.prod(img_dims)). -/
structure QuanvState where
  img_dims : List ℤ
  num_qubits : ℤ
  filter_size : List ℤ
  stride : ℤ
  random : Bool
  pixel_vals : List ℤ
deriving DecidableEq, Repr

/-- QuanvolutionalLayer.__init__ (quanvolutional_layer.py lines 25-88) for
type-valid img_dims, filter_size, random and pixel_vals (the isinstance
checks on those arguments are modelled by the Lean types).  stride is
declared Optional[int] and modelled as Option ℤ: isinstance(None, int) is
false, so stride=None hits the explicit TypeError.  Evaluation order of
filter_size[0] > min(self.img_dims) follows Python: the subscript (a
possible IndexError) before min (a possible ValueError on an empty
sequence). -/
def quanv_init (img_dims : List ℤ) (filter_size : List ℤ)
    (stride : Option ℤ) (random : Bool) (pixel_vals : List ℤ) :
    Except PyError QuanvState :=
  let num_qubits := pyProd img_dims
  match filter_size with
  | [] => .error .indexError
  | f0 :: _ =>
    match pyMin img_dims with
    | none => .error (.valueError "min() arg is an empty sequence")
    | some m =>
      if f0 > m then
        .error (.valueError
          "The filter_size must be less than or equal to the minimum image dimension.")
      else
        match stride with
        | none => .error (.typeError "The input stride must be of the type int.")
        | some st =>
          if st ≤ 0 ∨ st > m then
            .error (.valueError
              "The input stride must be at least 1 and less than or equal to the minimum image dimension.")
          else
            .ok ⟨img_dims, num_qubits, filter_size, st, random, pixel_vals⟩

/-- The arguments of one call to qiskit's random_circuit.  The random
circuit itself lives in the external library; the builder's behaviour is
fully described by the argument record of the call it makes. -/
structure RandomCircuitCall where
  num_qubits : ℕ
  depth : ℕ
  max_operands : ℕ
  measure : Bool
deriving DecidableEq, Repr

/-- QuanvolutionalLayer.build_sub_circuits (quanvolutional_layer.py lines
90-104): when self.random, return the result of
random_circuit(num_qubits=1, depth=2, max_operands=3, measure=True);
otherwise fall off the end of the function, which in Python returns None.
The sub_image argument is never read. -/
def build_sub_circuits (s : QuanvState) (_sub_image : List ℤ) :
    Option RandomCircuitCall :=
  if s.random then some ⟨1, 2, 3, true⟩ else none

/-- QuanvolutionalLayer.build_layer (quanvolutional_layer.py lines
106-123).  produce_sub_images (data_processing/sub_images.py) is not under
src/; modelled from the spec ("a classical image-patch decomposition
helper") as an arbitrary total function parameter.  Its result is bound to
sub_images and never used: the function body then reaches
return circuit_list, [] where the name circuit_list is never assigned, so
Python raises a NameError. -/
def quanv_build_layer (produce_sub_images : List ℤ → List ℤ → List (List ℤ))
    (s : QuanvState) : Except PyError (List RandomCircuitCall × List ℕ) :=
  let _sub_images := produce_sub_images s.filter_size s.pixel_vals
  .error (.nameError "circuit_list")

/- ## Concrete fixtures used to instantiate the universally quantified
theorems below on closed inputs -/

/-- A concrete gate_structure callable: the block label is the head of the
parameter list, the remaining parameters are its tail. -/
def gsFixture : List ℕ → ℕ × List ℕ := fun p => (p.headD 0, p.drop 1)

/-- The NEQR instance for a 2 x 2 image with pixel values 0..3 and the
default maximum color intensity 255. -/
def neqrFixture : NeqrState :=
  ⟨(2, 2), [0, 1, 2, 3], 256, 2, 8, 10, []⟩

/-- A successfully constructed quanvolutional layer on a 2 x 2 image with a
2 x 2 filter, stride 1, and the random marker set. -/
def quanvFixture : QuanvState :=
  ⟨[2, 2], 4, [2, 2], 1, true, [1, 2, 3, 4]⟩

/- ## Theorems -/

/- ### Generic list helpers -/

theorem foldl_append_flatMap {α β : Type} (body : List β → α → List β)
    (f : α → List β) (hb : ∀ c a, body c a = c ++ f a) (l : List α) :
    ∀ init : List β, l.foldl body init = init ++ l.flatMap f := by
  induction l with
  | nil => intro init; simp
  | cons a t ih =>
      intro init
      rw [List.foldl_cons, hb, ih, List.flatMap_cons, List.append_assoc]

theorem flatMap_singleton_eq_map {α β : Type} (f : α → β) (l : List α) :
    (l.flatMap fun a => [f a]) = l.map f := by
  induction l with
  | nil => rfl
  | cons a t ih => rw [List.flatMap_cons, List.map_cons, ih]; rfl

theorem filterMap_if_some {α β : Type} (b : α → Bool) (F : α → β) :
    ∀ l : List α,
      (l.filterMap fun a => if b a then some (F a) else none)
        = ((l.filterMap fun a => if b a then some a else none).map F)
  | [] => rfl
  | a :: t => by
      by_cases h : b a <;>
        simp [List.filterMap_cons, h, filterMap_if_some b F t]

/- ### MPS backbone layout -/

theorem mps_blocks_length {PV B : Type} (gs : PV → B × PV) :
    ∀ (k i : ℕ) (pv : PV), ((mps_blocks gs pv i k).1).length = k := by
  intro k
  induction k with
  | zero => intro i pv; rfl
  | succ k ih =>
      intro i pv
      simp only [mps_blocks, List.length_cons, ih]

theorem param_thread_succ {PV B : Type} (gs : PV → B × PV) (pv : PV)
    (j : ℕ) : param_thread gs pv (j + 1) = param_thread gs (gs pv).2 j := by
  simp [param_thread, Function.iterate_succ_apply]

theorem mps_blocks_get {PV B : Type} (gs : PV → B × PV) :
    ∀ (k j i : ℕ) (pv : PV), j < k →
      ((mps_blocks gs pv i k).1)[j]?
        = some ((gs (param_thread gs pv j)).1, i + j, i + j + 1) := by
  intro k
  induction k with
  | zero => intro j i pv hj; exact absurd hj (Nat.not_lt_zero j)
  | succ k ih =>
      intro j i pv hj
      cases j with
      | zero =>
          simp only [mps_blocks, List.getElem?_cons_zero, param_thread,
            Function.iterate_zero, id_eq, Nat.add_zero]
      | succ j =>
          have hj' : j < k := Nat.lt_of_succ_lt_succ hj
          have h := ih j (i + 1) (gs pv).2 hj'
          have e : i + (j + 1) = i + 1 + j := by omega
          simp only [mps_blocks, List.getElem?_cons_succ, e, param_thread_succ]
          exact h

/-- C3: for every gate-structure callable returning a (block, remaining
parameters) pair, mps_backbone composes exactly num_qubits - 1 two-qubit
blocks onto the stored circuit, the j-th block (j = 0, ..., num_qubits - 2,
in increasing order) acting on the adjacent qubit pair (j, j + 1) and
receiving the parameter vector left over by the preceding blocks, and
returns the stored circuit with those blocks appended. -/
theorem mps_backbone_layout {PV B : Type} (gs : PV → B × PV)
    (circuit : List (B × ℕ × ℕ)) (pv : PV) (n : ℕ) :
    mps_backbone gs circuit pv n = circuit ++ (mps_blocks gs pv 0 (n - 1)).1
    ∧ ((mps_blocks gs pv 0 (n - 1)).1).length = n - 1
    ∧ ∀ j, j < n - 1 →
        ((mps_blocks gs pv 0 (n - 1)).1)[j]?
          = some ((gs (param_thread gs pv j)).1, j, j + 1) := by
  refine ⟨rfl, mps_blocks_length gs (n - 1) 0 pv, ?_⟩
  intro j hj
  have h := mps_blocks_get gs (n - 1) j 0 pv hj
  simpa using h

/-- Witness for C3: on the concrete callable gsFixture with three qubits
and parameter list [5, 6, 7], the second of the two blocks is labelled by
the second parameter and acts on qubits (1, 2). -/
theorem mps_backbone_layout_witness :
    ((mps_blocks gsFixture [5, 6, 7] 0 2).1)[1]? = some (6, 1, 2) := by
  have h := (mps_backbone_layout gsFixture [] [5, 6, 7] 3).2.2 1 (by decide)
  rw [h]
  rfl

/- ### MPS constructor validation -/

/-- C7: the MPS constructor raises a TypeError exactly when img_dims is not
a tuple whose elements are all ints, raises a ValueError exactly when
img_dims is such a tuple but math.prod(img_dims) <= 0, and otherwise
succeeds, storing img_dims and a circuit with math.prod(img_dims) qubits;
the error paths produce no state. -/
theorem mps_init_validation (o : PyObj) :
    ((∃ msg, mps_init o = .error (.typeError msg)) ↔ isIntTuple o = false)
    ∧ (mps_init o
          = .error (.valueError "Image dimensions cannot be zero or negative.")
        ↔ isIntTuple o = true ∧ pyProd (tupleInts o) ≤ 0)
    ∧ (isIntTuple o = true → 0 < pyProd (tupleInts o) →
        ∃ s, mps_init o = .ok s ∧ s.img_dims = tupleInts o
          ∧ (s.num_qubits : ℤ) = pyProd (tupleInts o)) := by
  match o with
  | .notIterable =>
      refine ⟨?_, ?_, ?_⟩
      · simp [mps_init, isIntTuple]
      · simp [mps_init, isIntTuple]
      · intro h _; simp [isIntTuple] at h
  | .nontupleIterable elems =>
      refine ⟨?_, ?_, ?_⟩
      · simp [mps_init, isIntTuple]
      · simp [mps_init, isIntTuple]
      · intro h _; simp [isIntTuple] at h
  | .tuple elems =>
      by_cases hall : allInts elems
      · by_cases hprod : pyProd (tupleInts (.tuple elems)) ≤ 0
        · have hinit : mps_init (.tuple elems)
              = .error (.valueError "Image dimensions cannot be zero or negative.") := by
            simp [mps_init, hall, hprod]
          refine ⟨?_, ?_, ?_⟩
          · simp [hinit, isIntTuple, hall]
          · simp [hinit, isIntTuple, hall, hprod]
          · intro _ hpos; omega
        · have hinit : mps_init (.tuple elems)
              = .ok ⟨tupleInts (.tuple elems),
                  (pyProd (tupleInts (.tuple elems))).toNat⟩ := by
            simp [mps_init, hall, hprod]
          refine ⟨?_, ?_, ?_⟩
          · simp [hinit, isIntTuple, hall]
          · simp [hinit, isIntTuple, hall, hprod]
          · intro _ _
            refine ⟨_, hinit, rfl, ?_⟩
            show ((pyProd (tupleInts (PyObj.tuple elems))).toNat : ℤ)
              = pyProd (tupleInts (PyObj.tuple elems))
            omega
      · have hinit : mps_init (.tuple elems)
            = .error (.typeError "Input img_dims must be of the type tuple[int, int].") := by
          simp [mps_init, hall]
        refine ⟨?_, ?_, ?_⟩
        · simp [hinit, isIntTuple, hall]
        · simp [hinit, isIntTuple, hall]
        · intro h _; simp [isIntTuple, hall] at h

/-- Witness for C7: the tuple (2, 3) passes validation and yields a 6-qubit
instance. -/
theorem mps_init_validation_witness :
    ∃ s, mps_init (PyObj.tuple [.int 2, .int 3]) = .ok s
      ∧ s.img_dims = tupleInts (PyObj.tuple [.int 2, .int 3])
      ∧ (s.num_qubits : ℤ) = pyProd (tupleInts (PyObj.tuple [.int 2, .int 3])) :=
  (mps_init_validation (PyObj.tuple [.int 2, .int 3])).2.2 (by decide) (by decide)

/- ### MPS parameter-vector lengths -/

/-- C1 (counterexample): the parameter vector allocated by mps_general is
not exactly consumed by the per-block parameter counts over the
num_qubits - 1 blocks.  At num_qubits = 2 the allocation exceeds the
consumption for both structures, and no per-block count whatsoever consumes
the complex-structure allocation exactly at both num_qubits = 2 and
num_qubits = 3. -/
theorem mps_general_param_length_not_exactly_consumed :
    mps_general_param_length true 2
        ≠ mps_num_blocks 2 * general_block_param_count true
    ∧ mps_general_param_length false 2
        ≠ mps_num_blocks 2 * general_block_param_count false
    ∧ ¬ ∃ c : ℕ, mps_num_blocks 2 * c = mps_general_param_length true 2
        ∧ mps_num_blocks 3 * c = mps_general_param_length true 3 := by
  refine ⟨by decide, by decide, ?_⟩
  rintro ⟨c, h1, h2⟩
  simp [mps_num_blocks, mps_general_param_length] at h1 h2
  omega

/-- C1 (amended): with n = prod(img_dims) qubits, mps_simple allocates a
parameter vector of length 2n - 2, exactly consumed by the 2 parameters per
block of the simple parameterization over the n - 1 blocks laid out by
mps_backbone; mps_general allocates 15n - 2 parameters (complex structure)
or 6n - 2 (real structure), of which the n - 1 blocks consume only
15(n - 1) resp. 6(n - 1), leaving 13 resp. 4 allocated parameters
unconsumed. -/
theorem mps_param_allocation (cs : Bool) (n : ℕ) (h : 1 ≤ n) :
    mps_simple_param_length n = mps_num_blocks n * simple_block_param_count cs
    ∧ mps_general_param_length cs n
        = mps_num_blocks n * general_block_param_count cs
          + (if cs then 13 else 4) := by
  cases cs <;>
    simp [mps_simple_param_length, mps_general_param_length,
      mps_num_blocks, simple_block_param_count, general_block_param_count] <;>
    omega

/-- Witness for C1 (amended), at n = 4 with the complex structure:
6 = 3 * 2 and 58 = 3 * 15 + 13. -/
theorem mps_param_allocation_witness :
    1 ≤ 4
    ∧ (mps_simple_param_length 4
          = mps_num_blocks 4 * simple_block_param_count true
      ∧ mps_general_param_length true 4
          = mps_num_blocks 4 * general_block_param_count true
            + (if true then 13 else 4)) :=
  ⟨by decide, mps_param_allocation true 4 (by decide)⟩

/- ### Exact ceiling square root and ceiling base-2 logarithm -/

theorem ceilSqrtAux_le (n : ℕ) : ∀ m, ceilSqrtAux n m ≤ m := by
  intro m
  induction m with
  | zero => simp [ceilSqrtAux]
  | succ m ih =>
      by_cases hle : n ≤ m * m
      · simp only [ceilSqrtAux, if_pos hle]
        exact le_trans ih (Nat.le_succ m)
      · simp only [ceilSqrtAux, if_neg hle]
        exact le_refl _

theorem le_ceilSqrtAux_sq (n : ℕ) :
    ∀ m, n ≤ m * m → n ≤ ceilSqrtAux n m * ceilSqrtAux n m := by
  intro m
  induction m with
  | zero => intro h; simpa [ceilSqrtAux] using h
  | succ m ih =>
      intro h
      by_cases hle : n ≤ m * m
      · simp only [ceilSqrtAux, if_pos hle]
        exact ih hle
      · simp only [ceilSqrtAux, if_neg hle]
        exact h

theorem ceilSqrtAux_least (n : ℕ) :
    ∀ m j, n ≤ j * j → j ≤ m → ceilSqrtAux n m ≤ j := by
  intro m
  induction m with
  | zero => intro j _ _; simp [ceilSqrtAux]
  | succ m ih =>
      intro j hj hjm
      by_cases hle : n ≤ m * m
      · simp only [ceilSqrtAux, if_pos hle]
        rcases Nat.lt_or_ge j (m + 1) with hlt | hge
        · exact ih j hj (Nat.lt_succ_iff.mp hlt)
        · exact le_trans (ceilSqrtAux_le n m) (by omega)
      · simp only [ceilSqrtAux, if_neg hle]
        by_contra hcon
        push_neg at hcon
        have hjm' : j ≤ m := by omega
        have hsq : j * j ≤ m * m := Nat.mul_le_mul hjm' hjm'
        exact hle (le_trans hj hsq)

theorem ceilSqrt_le_iff (n k : ℕ) : ceilSqrt n ≤ k ↔ n ≤ k * k := by
  have hself : n ≤ n * n := by
    rcases Nat.eq_zero_or_pos n with h | h
    · simp [h]
    · calc n = 1 * n := (Nat.one_mul n).symm
        _ ≤ n * n := Nat.mul_le_mul_right n h
  constructor
  · intro h
    have h1 : n ≤ ceilSqrt n * ceilSqrt n := le_ceilSqrtAux_sq n n hself
    exact le_trans h1 (Nat.mul_le_mul h h)
  · intro h
    rcases le_or_lt k n with hkn | hnk
    · exact ceilSqrtAux_least n n k h hkn
    · exact le_trans (ceilSqrtAux_le n n) (le_of_lt hnk)

theorem int_ceil_real_sqrt (n : ℕ) :
    ⌈Real.sqrt (n : ℝ)⌉ = (ceilSqrt n : ℤ) := by
  have hnn : (0 : ℝ) ≤ (n : ℝ) := Nat.cast_nonneg n
  apply le_antisymm
  · rw [Int.ceil_le]
    push_cast
    have h1 : n ≤ ceilSqrt n * ceilSqrt n := (ceilSqrt_le_iff n (ceilSqrt n)).mp le_rfl
    have h2 : (n : ℝ) ≤ (ceilSqrt n : ℝ) * (ceilSqrt n : ℝ) := by exact_mod_cast h1
    calc Real.sqrt (n : ℝ)
        ≤ Real.sqrt ((ceilSqrt n : ℝ) * (ceilSqrt n : ℝ)) := Real.sqrt_le_sqrt h2
      _ = (ceilSqrt n : ℝ) := Real.sqrt_mul_self (by positivity)
  · have hc : (0 : ℤ) ≤ ⌈Real.sqrt (n : ℝ)⌉ := Int.ceil_nonneg (Real.sqrt_nonneg _)
    have h1 : Real.sqrt (n : ℝ) ≤ (⌈Real.sqrt (n : ℝ)⌉ : ℝ) := Int.le_ceil _
    have hzr : (0 : ℝ) ≤ (⌈Real.sqrt (n : ℝ)⌉ : ℝ) := by exact_mod_cast hc
    have h2 : (n : ℝ) ≤ (⌈Real.sqrt (n : ℝ)⌉ : ℝ) * (⌈Real.sqrt (n : ℝ)⌉ : ℝ) := by
      calc (n : ℝ) = Real.sqrt (n : ℝ) * Real.sqrt (n : ℝ) :=
            (Real.mul_self_sqrt hnn).symm
        _ ≤ (⌈Real.sqrt (n : ℝ)⌉ : ℝ) * (⌈Real.sqrt (n : ℝ)⌉ : ℝ) :=
            mul_le_mul h1 h1 (Real.sqrt_nonneg _) hzr
    have h2' : (n : ℤ) ≤ ⌈Real.sqrt (n : ℝ)⌉ * ⌈Real.sqrt (n : ℝ)⌉ := by exact_mod_cast h2
    have h3 : n ≤ ⌈Real.sqrt (n : ℝ)⌉.toNat * ⌈Real.sqrt (n : ℝ)⌉.toNat := by
      have e : (⌈Real.sqrt (n : ℝ)⌉.toNat : ℤ) = ⌈Real.sqrt (n : ℝ)⌉ :=
        Int.toNat_of_nonneg hc
      zify
      rw [e]
      exact h2'
    have h4 : ceilSqrt n ≤ ⌈Real.sqrt (n : ℝ)⌉.toNat := (ceilSqrt_le_iff n _).mpr h3
    omega

theorem ceilLog2Aux_eq_clog :
    ∀ fuel n, n ≤ fuel → ceilLog2Aux fuel n = Nat.clog 2 n := by
  intro fuel
  induction fuel with
  | zero =>
      intro n hn
      have hn0 : n = 0 := by omega
      subst hn0
      simp [ceilLog2Aux, Nat.clog_of_right_le_one]
  | succ fuel ih =>
      intro n hn
      by_cases h1 : n ≤ 1
      · simp [ceilLog2Aux, h1, Nat.clog_of_right_le_one h1]
      · have h2 : 2 ≤ n := by omega
        rw [show ceilLog2Aux (fuel + 1) n = ceilLog2Aux fuel ((n + 1) / 2) + 1 from by
          simp [ceilLog2Aux, h1]]
        rw [ih ((n + 1) / 2) (by omega)]
        rw [Nat.clog_of_two_le (by norm_num) h2]
        have e : n + 2 - 1 = n + 1 := by omega
        rw [e]

theorem ceilLog2_eq_clog (n : ℕ) : ceilLog2 n = Nat.clog 2 n :=
  ceilLog2Aux_eq_clog n n le_rfl

theorem int_ceil_real_logb (n : ℕ) :
    ⌈Real.logb 2 (n : ℝ)⌉ = (ceilLog2 n : ℤ) := by
  have h := Real.ceil_logb_natCast (b := 2) (r := (n : ℝ)) (Nat.cast_nonneg n)
  rw [Int.clog_natCast] at h
  rw [ceilLog2_eq_clog]
  rw [← h]
  norm_num

/- ### NEQR constructor -/

theorem image_embedding_checks_cases (d : ℤ × ℤ) (pv : List ℤ) :
    image_embedding_checks d pv = none
    ∨ image_embedding_checks d pv = some (.valueError
        "No. of pixels in pixel_vals must be equal to the product of image dimensions.")
    ∨ image_embedding_checks d pv = some (.valueError
        "Pixel values cannot be less than 0 or greater than 255.") := by
  unfold image_embedding_checks
  split_ifs
  · exact Or.inr (Or.inl rfl)
  · exact Or.inl rfl
  · exact Or.inr (Or.inr rfl)

theorem image_embedding_checks_of_valid (d : ℤ × ℤ) (pv : List ℤ)
    (h : valid_pixel_vals d pv) : image_embedding_checks d pv = none := by
  unfold image_embedding_checks
  rw [if_neg (fun hc => hc h.1), if_pos h.2]

theorem neqr_init_checks_error (d : ℤ × ℤ) (pv : List ℤ) (m : ℤ)
    (e : PyError) (h : image_embedding_checks d pv = some e) :
    neqr_init d pv m = .error e := by
  simp [neqr_init, h]

/-- C6: constructing a NEQR with unequal image dimensions raises a
ValueError at constructor time, before any circuit is created — the
square-image ValueError once the base-class pixel validation passes, one of
the base-class pixel ValueErrors otherwise; with square dimensions and
valid pixel_vals, max_color_intensity outside [0, 255] raises a ValueError
with the message about maximum color intensity; for square dimensions and
max_color_intensity in [0, 255] neither of those two errors is raised, and
with valid pixel_vals the constructor succeeds. -/
theorem neqr_init_validation (d : ℤ × ℤ) (pv : List ℤ) (m : ℤ) :
    (d.1 ≠ d.2 → ∃ msg, neqr_init d pv m = .error (.valueError msg))
    ∧ (d.1 ≠ d.2 → valid_pixel_vals d pv →
        neqr_init d pv m = .error (.valueError
          "supports square images only. Input img_dims must have same dimensions."))
    ∧ (d.1 = d.2 → valid_pixel_vals d pv → (m < 0 ∨ 255 < m) →
        neqr_init d pv m = .error (.valueError
          "Maximum color intensity cannot be less than 0 or greater than 255."))
    ∧ (d.1 = d.2 → 0 ≤ m → m ≤ 255 →
        neqr_init d pv m ≠ .error (.valueError
          "supports square images only. Input img_dims must have same dimensions.")
        ∧ neqr_init d pv m ≠ .error (.valueError
          "Maximum color intensity cannot be less than 0 or greater than 255."))
    ∧ (d.1 = d.2 → valid_pixel_vals d pv → 0 ≤ m → m ≤ 255 →
        ∃ s, neqr_init d pv m = .ok s) := by
  refine ⟨?_, ?_, ?_, ?_, ?_⟩
  · intro hne
    rcases image_embedding_checks_cases d pv with hch | hch | hch
    · exact ⟨"supports square images only. Input img_dims must have same dimensions.",
        by simp [neqr_init, hch, hne]⟩
    · exact ⟨"No. of pixels in pixel_vals must be equal to the product of image dimensions.",
        neqr_init_checks_error d pv m _ hch⟩
    · exact ⟨"Pixel values cannot be less than 0 or greater than 255.",
        neqr_init_checks_error d pv m _ hch⟩
  · intro hne hvalid
    have hch := image_embedding_checks_of_valid d pv hvalid
    simp [neqr_init, hch, hne]
  · intro heq hvalid hm
    have hch := image_embedding_checks_of_valid d pv hvalid
    simp [neqr_init, hch, heq, hm]
  · intro heq hm0 hm255
    have hcond : ¬(m < 0 ∨ 255 < m) := by omega
    rcases image_embedding_checks_cases d pv with hch | hch | hch
    · constructor <;> simp [neqr_init, hch, heq, hcond]
    · rw [neqr_init_checks_error d pv m _ hch]
      constructor <;> decide
    · rw [neqr_init_checks_error d pv m _ hch]
      constructor <;> decide
  · intro heq hvalid hm0 hm255
    have hch := image_embedding_checks_of_valid d pv hvalid
    have hcond : ¬(m < 0 ∨ 255 < m) := by omega
    exact ⟨⟨d, pv, m + 1, ceilSqrt (d.1 * d.2).toNat, ceilLog2 (m + 1).toNat,
      ceilSqrt (d.1 * d.2).toNat + ceilLog2 (m + 1).toNat, []⟩,
      by simp [neqr_init, hch, heq, hcond]⟩

/-- Witness for C6: a 2 x 3 image with six valid pixels raises a
ValueError, specifically the square-image one; a 2 x 2 image with valid
pixels and intensity 300 is rejected with the intensity message; with
intensity 100 neither of the two errors occurs and construction
succeeds. -/
theorem neqr_init_validation_witness :
    (∃ msg, neqr_init (2, 3) [0, 1, 2, 3, 4, 5] 100
        = .error (.valueError msg))
    ∧ neqr_init (2, 3) [0, 1, 2, 3, 4, 5] 100 = .error (.valueError
        "supports square images only. Input img_dims must have same dimensions.")
    ∧ neqr_init (2, 2) [0, 1, 2, 3] 300 = .error (.valueError
        "Maximum color intensity cannot be less than 0 or greater than 255.")
    ∧ (neqr_init (2, 2) [0, 1, 2, 3] 100 ≠ .error (.valueError
        "supports square images only. Input img_dims must have same dimensions.")
      ∧ neqr_init (2, 2) [0, 1, 2, 3] 100 ≠ .error (.valueError
        "Maximum color intensity cannot be less than 0 or greater than 255."))
    ∧ ∃ s, neqr_init (2, 2) [0, 1, 2, 3] 100 = .ok s :=
  ⟨(neqr_init_validation (2, 3) [0, 1, 2, 3, 4, 5] 100).1 (by decide),
   (neqr_init_validation (2, 3) [0, 1, 2, 3, 4, 5] 100).2.1
     (by decide) (by decide),
   (neqr_init_validation (2, 2) [0, 1, 2, 3] 300).2.2.1
     rfl (by decide) (Or.inr (by decide)),
   (neqr_init_validation (2, 2) [0, 1, 2, 3] 100).2.2.2.1
     rfl (by decide) (by decide),
   (neqr_init_validation (2, 2) [0, 1, 2, 3] 100).2.2.2.2
     rfl (by decide) (by decide) (by decide)⟩

/-- C5: a successfully constructed NEQR instance stores a circuit with
exactly ceil(sqrt(prod(img_dims))) + ceil(log2(max_color_intensity + 1))
qubits, split as feature_dim position qubits plus color_qubits color
qubits. -/
theorem neqr_qubit_count (d : ℤ × ℤ) (pv : List ℤ) (m : ℤ) (s : NeqrState)
    (hs : neqr_init d pv m = .ok s) :
    s.num_qubits = s.feature_dim + s.color_qubits
    ∧ (s.num_qubits : ℤ)
        = ⌈Real.sqrt (((d.1 * d.2).toNat : ℕ) : ℝ)⌉
          + ⌈Real.logb 2 ((((m + 1).toNat : ℕ) : ℕ) : ℝ)⌉ := by
  rcases image_embedding_checks_cases d pv with hch | hch | hch
  · simp only [neqr_init, hch] at hs
    split_ifs at hs with h1 h2
    injection hs with h
    subst h
    refine ⟨rfl, ?_⟩
    show ((ceilSqrt (d.1 * d.2).toNat + ceilLog2 (m + 1).toNat : ℕ) : ℤ) = _
    rw [int_ceil_real_sqrt, int_ceil_real_logb]
    push_cast
    ring
  · rw [neqr_init_checks_error d pv m _ hch] at hs
    exact absurd hs (by simp)
  · rw [neqr_init_checks_error d pv m _ hch] at hs
    exact absurd hs (by simp)

/-- Witness for C5: the 2 x 2 instance with the default maximum color
intensity 255 has 10 = 2 + 8 qubits. -/
theorem neqr_qubit_count_witness :
    neqrFixture.num_qubits = neqrFixture.feature_dim + neqrFixture.color_qubits
    ∧ (neqrFixture.num_qubits : ℤ)
        = ⌈Real.sqrt (((((2 : ℤ) * 2).toNat : ℕ) : ℕ) : ℝ)⌉
          + ⌈Real.logb 2 (((((255 : ℤ) + 1).toNat : ℕ) : ℕ) : ℝ)⌉ :=
  neqr_qubit_count (2, 2) [0, 1, 2, 3] 255 neqrFixture (by decide)

/- ### NEQR circuit structure -/

/-- C2: NEQR.build_circuit first applies a Hadamard gate to each of the
feature_dim position qubits, then for every pixel index p in
range(prod(img_dims)), in increasing order, appends the pixel-position
embedding of the (2-padded) binary encoding of p, then the pixel-value
embedding of pixel p, then the same pixel-position embedding again to
uncompute it, and finally returns the stored circuit with everything
appended. -/
theorem neqr_build_circuit_structure (s : NeqrState) :
    neqr_build_circuit s
      = s.circuit
        ++ (List.range s.feature_dim).map NeqrInstr.h
        ++ (List.range (s.img_dims.1 * s.img_dims.2).toNat).flatMap
            (fun (pixel : ℕ) =>
              NeqrInstr.pixelPosition (pyBinFormat 2 (pixel : ℤ))
                :: (pixel_value s.feature_dim s.pixel_vals pixel
                  ++ [NeqrInstr.pixelPosition (pyBinFormat 2 (pixel : ℤ))])) := by
  simp only [neqr_build_circuit]
  rw [foldl_append_flatMap _ (fun i => [NeqrInstr.h i]) (fun c a => rfl)]
  rw [foldl_append_flatMap _
      (fun (pixel : ℕ) => NeqrInstr.pixelPosition (pyBinFormat 2 (pixel : ℤ))
        :: (pixel_value s.feature_dim s.pixel_vals pixel
          ++ [NeqrInstr.pixelPosition (pyBinFormat 2 (pixel : ℤ))]))
      (fun c a => by simp)]
  rw [flatMap_singleton_eq_map, List.append_assoc]

/- ### NEQR pixel-value gates -/

theorem filterMap_mct_extract (fd : ℕ) :
    ∀ L : List (ℕ × Char),
      (L.filterMap fun ic =>
          if ic.2 = '1'
          then some (NeqrInstr.mct (List.range fd) (fd + ic.1)) else none)
        = ((L.filterMap fun ic => if ic.2 = '1' then some ic.1 else none).map
            fun i => NeqrInstr.mct (List.range fd) (fd + i)) := by
  intro L
  induction L with
  | nil => rfl
  | cons a t ih =>
      by_cases hc : a.2 = '1' <;> simp [List.filterMap_cons, hc, ih]

theorem range8_mct_extract (fd v : ℕ) :
    ((List.range 8).filterMap fun i =>
        if Nat.testBit v (7 - i)
        then some (NeqrInstr.mct (List.range fd) (fd + i)) else none)
      = (((List.range 8).filterMap fun i =>
            if Nat.testBit v (7 - i) then some i else none).map
          fun i => NeqrInstr.mct (List.range fd) (fd + i)) := by
  generalize List.range 8 = L
  induction L with
  | nil => rfl
  | cons a t ih =>
      by_cases hc : Nat.testBit v (7 - a) = true <;>
        simp [List.filterMap_cons, hc, ih]

set_option maxHeartbeats 2000000 in
set_option maxRecDepth 40000 in
theorem byte_one_indices :
    ∀ v : Fin 256,
      ((pyBinFormat 8 ((v : ℕ) : ℤ)).enum.filterMap
          fun ic => if ic.2 = '1' then some ic.1 else none)
        = ((List.range 8).filterMap
            fun i => if Nat.testBit (v : ℕ) (7 - i) then some i else none) := by
  decide

/-- C8: for an in-range pixel position whose pixel value lies in [0, 255],
pixel_value appends exactly one multi-controlled-X gate for each one-digit
of the 8-bit big-endian binary encoding of the pixel value, controlled by
all feature_dim position qubits and targeting qubit feature_dim + index of
the digit; the target indices span the fixed 8-bit width regardless of the
number of allocated color qubits. -/
theorem pixel_value_gates (fd : ℕ) (vals : List ℤ) (p : ℕ)
    (hp : p < vals.length) (h0 : 0 ≤ vals.getD p 0)
    (h255 : vals.getD p 0 ≤ 255) :
    pixel_value fd vals p
      = (List.range 8).filterMap
          (fun i =>
            if Nat.testBit (vals.getD p 0).toNat (7 - i)
            then some (NeqrInstr.mct (List.range fd) (fd + i))
            else none) := by
  have hv : (vals.getD p 0).toNat < 256 := by omega
  have hkey :
      ((pyBinFormat 8 (((vals.getD p 0).toNat : ℕ) : ℤ)).enum.filterMap
          fun ic => if ic.2 = '1' then some ic.1 else none)
        = ((List.range 8).filterMap
            fun i =>
              if Nat.testBit (vals.getD p 0).toNat (7 - i) then some i
              else none) :=
    byte_one_indices ⟨(vals.getD p 0).toNat, hv⟩
  have e : (((vals.getD p 0).toNat : ℕ) : ℤ) = vals.getD p 0 :=
    Int.toNat_of_nonneg h0
  rw [e] at hkey
  simp only [pixel_value]
  rw [filterMap_mct_extract, range8_mct_extract, hkey]

/-- Witness for C8: pixel 1 of the fixture image has value 100 = 01100100,
so the gates target color qubits at offsets 1, 2 and 5 above the two
position qubits. -/
theorem pixel_value_gates_witness :
    pixel_value 2 [0, 100, 200, 255] 1
      = [NeqrInstr.mct [0, 1] 3, NeqrInstr.mct [0, 1] 4,
         NeqrInstr.mct [0, 1] 7] := by
  have h := pixel_value_gates 2 [0, 100, 200, 255] 1
    (by decide) (by decide) (by decide)
  rw [h]
  rfl

/- ### Quanvolutional layer -/

/-- C9: build_sub_circuits calls random_circuit with num_qubits=1, depth=2,
max_operands=3 and measure=True when self.random is set, returns None when
it is not, and ignores its sub_image argument in both cases. -/
theorem build_sub_circuits_spec (s : QuanvState) (sub_image : List ℤ) :
    (s.random = true →
        build_sub_circuits s sub_image
          = some (RandomCircuitCall.mk 1 2 3 true))
    ∧ (s.random = false → build_sub_circuits s sub_image = none)
    ∧ (∀ other : List ℤ,
        build_sub_circuits s sub_image = build_sub_circuits s other) :=
  ⟨fun h => by simp [build_sub_circuits, h],
   fun h => by simp [build_sub_circuits, h],
   fun _ => rfl⟩

/-- Witness for C9: the fixture layer has random set, so its sub-circuit is
the one-qubit depth-2 measured random circuit. -/
theorem build_sub_circuits_spec_witness :
    build_sub_circuits quanvFixture [9, 9]
      = some (RandomCircuitCall.mk 1 2 3 true) :=
  (build_sub_circuits_spec quanvFixture [9, 9]).1 rfl

/-- C10: with a valid filter_size for the given image dimensions, passing
stride=None raises a TypeError with the stride message even though stride
is declared Optional[int]; an int stride raises a ValueError exactly when
it is nonpositive or exceeds the minimum image dimension, and is otherwise
stored unchanged in the constructed instance. -/
theorem quanv_init_stride (img_dims : List ℤ) (f0 : ℤ) (frest : List ℤ)
    (random : Bool) (pixel_vals : List ℤ) (m : ℤ)
    (hm : pyMin img_dims = some m) (hf0 : f0 ≤ m) :
    (quanv_init img_dims (f0 :: frest) none random pixel_vals
        = .error (.typeError "The input stride must be of the type int."))
    ∧ ∀ st : ℤ,
        ((st ≤ 0 ∨ m < st) →
          quanv_init img_dims (f0 :: frest) (some st) random pixel_vals
            = .error (.valueError
              "The input stride must be at least 1 and less than or equal to the minimum image dimension."))
        ∧ (0 < st → st ≤ m →
          quanv_init img_dims (f0 :: frest) (some st) random pixel_vals
            = .ok ⟨img_dims, pyProd img_dims, f0 :: frest, st, random,
                pixel_vals⟩) := by
  have hnotf : ¬ f0 > m := not_lt.mpr hf0
  refine ⟨?_, ?_⟩
  · simp [quanv_init, hm, hnotf]
  · intro st
    constructor
    · intro hbad
      simp [quanv_init, hm, hnotf, hbad]
    · intro h1 h2
      have hgood : ¬(st ≤ 0 ∨ m < st) := by omega
      simp [quanv_init, hm, hnotf, hgood]

/-- Witness for C10: on a 2 x 2 image with a 2 x 2 filter, stride=None is a
TypeError, stride 3 exceeds the minimum dimension 2 and is a ValueError,
and stride 1 is stored in the constructed layer. -/
theorem quanv_init_stride_witness :
    quanv_init [2, 2] [2, 2] none true [1, 2, 3, 4]
        = .error (.typeError "The input stride must be of the type int.")
    ∧ quanv_init [2, 2] [2, 2] (some 3) true [1, 2, 3, 4]
        = .error (.valueError
          "The input stride must be at least 1 and less than or equal to the minimum image dimension.")
    ∧ quanv_init [2, 2] [2, 2] (some 1) true [1, 2, 3, 4]
        = .ok quanvFixture := by
  have h := quanv_init_stride [2, 2] 2 [2] true [1, 2, 3, 4] 2
    (by decide) (by decide)
  exact ⟨h.1, (h.2 3).1 (Or.inr (by decide)),
    ((h.2 1).2 (by decide) (by decide)).trans (by decide)⟩

/-- C4 (evaluation of the code at the failing input): for every
successfully constructed layer and every behaviour of the image-patch
decomposition helper, build_layer raises a NameError for the never-assigned
name circuit_list instead of returning the layer circuits and unmeasured
bits. -/
theorem quanv_build_layer_raises
    (produce_sub_images : List ℤ → List ℤ → List (List ℤ))
    (s : QuanvState) :
    quanv_build_layer produce_sub_images s
      = .error (.nameError "circuit_list") := rfl

end QIP
